import Mathlib

/-!
Shallow embedding of the brightdata-proxy server (src/index.js).

The server forwards a search query to the Bright Data SERP API, receives raw
Google-results HTML, and extracts organic results with
`parseGoogleHTMLWithCheerio`.  JS strings are modelled as Lean `String`
(lengths count code points where JS counts UTF-16 units; no claim in scope
distinguishes the two).  The cheerio document tree is modelled by the
`Document`/`Block` structures below: a `Block` records exactly the
observations the extraction loop makes of one candidate element through the
fixed selector set of the source.  Everything else (URL unwrapping, the
URLSearchParams decoder, validation, deduplication, the 10-result cap, the
placeholder results, and the two HTTP endpoints) is translated directly from
the source.
-/

namespace BrightdataProxy

/-! ### JS string primitives -/

/-- JS `String.prototype.startsWith`: character-level prefix test. -/
def jsStartsWith (s p : String) : Bool :=
  List.isPrefixOf p.data s.data

/-- Occurrence of `pat` as a contiguous run inside a character list. -/
def listContainsInfix (pat : List Char) : List Char → Bool
  | [] => pat.isEmpty
  | c :: rest => List.isPrefixOf pat (c :: rest) || listContainsInfix pat rest

/-- JS `String.prototype.includes`: substring occurrence test. -/
def jsIncludes (s pat : String) : Bool :=
  listContainsInfix pat.data s.data

/-- JS `String.prototype.trim`: drop leading and trailing whitespace. -/
def jsTrim (s : String) : String :=
  ⟨((s.data.dropWhile Char.isWhitespace).reverse.dropWhile Char.isWhitespace).reverse⟩

/-- JS `s.substring(0, n)`: the first `n` characters. -/
def jsSubstringTo (n : Nat) (s : String) : String :=
  ⟨s.data.take n⟩

/-- The suffix of `s` from the first occurrence of `c` (inclusive); used for
`url.substring(url.indexOf(c))`.  When `c` is absent JS `indexOf` gives `-1`
and `substring(-1)` is the whole string. -/
def fromFirstChar (c : Char) : List Char → List Char
  | [] => []
  | x :: xs => if x = c then x :: xs else fromFirstChar c xs

/-- JS `s.substring(s.indexOf(c))`. -/
def jsSubstringFromFirst (c : Char) (s : String) : String :=
  if s.data.contains c then ⟨fromFirstChar c s.data⟩ else s

/-! ### URLSearchParams (WHATWG form-urlencoded parsing)

`new URLSearchParams(str).get('q')` as used at src/index.js:370-371: strip a
leading question mark, split on ampersands, split each pair at its first
equals sign, percent-decode both halves with plus-as-space, and return the
first value keyed "q". -/

/-- Split a character list on a separator character. -/
def splitOnChar (c : Char) : List Char → List (List Char)
  | [] => [[]]
  | x :: xs =>
    let r := splitOnChar c xs
    if x = c then [] :: r
    else
      match r with
      | [] => [[x]]
      | y :: ys => (x :: y) :: ys

/-- Split a pair at its first equals sign; a pair with no equals sign has the
empty value, as in URLSearchParams. -/
def splitAtFirstEq : List Char → List Char × List Char
  | [] => ([], [])
  | x :: xs =>
    if x = '=' then ([], xs)
    else
      let kv := splitAtFirstEq xs
      (x :: kv.1, kv.2)

/-- Value of a hex digit, if `c` is one. -/
def hexVal (c : Char) : Option Nat :=
  if '0' ≤ c ∧ c ≤ '9' then some (c.toNat - 48)
  else if 'A' ≤ c ∧ c ≤ 'F' then some (c.toNat - 55)
  else if 'a' ≤ c ∧ c ≤ 'f' then some (c.toNat - 87)
  else none

/-- UTF-8 encoding of one code point, as a byte list. -/
def utf8Bytes (c : Char) : List Nat :=
  let n := c.toNat
  if n < 128 then [n]
  else if n < 2048 then [192 + n / 64, 128 + n % 64]
  else if n < 65536 then [224 + n / 4096, 128 + n / 64 % 64, 128 + n % 64]
  else [240 + n / 262144, 128 + n / 4096 % 64, 128 + n / 64 % 64, 128 + n % 64]

/-- Percent-decoding of form-urlencoded text into bytes: plus becomes a space,
a percent sign followed by two hex digits becomes that byte, anything else
contributes its UTF-8 bytes (a stray percent sign is kept as-is). -/
def formDecodeBytes : List Char → List Nat
  | [] => []
  | '+' :: rest => 32 :: formDecodeBytes rest
  | '%' :: a :: b :: rest =>
    match hexVal a, hexVal b with
    | some x, some y => (16 * x + y) :: formDecodeBytes rest
    | _, _ => 37 :: formDecodeBytes (a :: b :: rest)
  | c :: rest => utf8Bytes c ++ formDecodeBytes rest

/-- The replacement character U+FFFD. -/
def replChar : Char := Char.ofNat 65533

/-- Whether a byte is a UTF-8 continuation byte. -/
def isContByte (b : Nat) : Bool := 128 ≤ b && b < 192

/-- UTF-8 decoding of a byte list, with U+FFFD for malformed sequences. -/
def utf8Decode : List Nat → List Char
  | [] => []
  | b :: rest =>
    let bad := replChar :: utf8Decode rest
    if b < 128 then Char.ofNat b :: utf8Decode rest
    else if 194 ≤ b && b ≤ 223 then
      match rest with
      | b2 :: rest2 =>
        if isContByte b2 then
          Char.ofNat ((b - 192) * 64 + (b2 - 128)) :: utf8Decode rest2
        else bad
      | [] => [replChar]
    else if 224 ≤ b && b ≤ 239 then
      match rest with
      | b2 :: b3 :: rest3 =>
        if isContByte b2 && isContByte b3 then
          let v := (b - 224) * 4096 + (b2 - 128) * 64 + (b3 - 128)
          if 2048 ≤ v && !(55296 ≤ v && v ≤ 57343) then
            Char.ofNat v :: utf8Decode rest3
          else bad
        else bad
      | _ => [replChar]
    else if 240 ≤ b && b ≤ 244 then
      match rest with
      | b2 :: b3 :: b4 :: rest4 =>
        if isContByte b2 && isContByte b3 && isContByte b4 then
          let v := (b - 240) * 262144 + (b2 - 128) * 4096 + (b3 - 128) * 64 + (b4 - 128)
          if 65536 ≤ v && v ≤ 1114111 then
            Char.ofNat v :: utf8Decode rest4
          else bad
        else bad
      | _ => [replChar]
    else bad

/-- Percent-decode a form-urlencoded component into a string. -/
def decodeFormComponent (s : String) : String :=
  ⟨utf8Decode (formDecodeBytes s.data)⟩

/-- The name/value list of `new URLSearchParams(s)`. -/
def parseSearchParams (s : String) : List (String × String) :=
  let l :=
    match s.data with
    | '?' :: r => r
    | l => l
  (splitOnChar '&' l).filterMap fun seg =>
    if seg.isEmpty then none
    else
      let kv := splitAtFirstEq seg
      some (decodeFormComponent ⟨kv.1⟩, decodeFormComponent ⟨kv.2⟩)

/-- `new URLSearchParams(s).get(name)`: the first value under `name`. -/
def uspGet (name : String) (s : String) : Option String :=
  ((parseSearchParams s).find? fun p => p.1 = name).map fun p => p.2

/-! ### URL unwrapping (src/index.js:368-372) -/

/-- The redirect-unwrap step: a Google `/url?q=` wrapper is replaced by the
decoded `q` parameter (`urlParams.get('q') || url`); any other URL passes
through unchanged. -/
def unwrapUrl (url : String) : String :=
  if jsStartsWith url "/url?q=" then
    match uspGet "q" (jsSubstringFromFirst '?' url) with
    | some q => if q = "" then url else q
    | none => url
  else url

/-! ### encodeURIComponent -/

/-- Characters `encodeURIComponent` leaves unescaped. -/
def isUnreservedURI (c : Char) : Bool :=
  c.isAlphanum || c = '-' || c = '_' || c = '.' || c = '!' || c = '~' ||
  c = '*' || c = Char.ofNat 39 || c = '(' || c = ')'

/-- Uppercase hex digit of a value below 16. -/
def hexDigitChar (n : Nat) : Char :=
  if n < 10 then Char.ofNat (48 + n) else Char.ofNat (55 + n)

/-- Percent-escape of one byte. -/
def percentByte (b : Nat) : List Char :=
  ['%', hexDigitChar (b / 16), hexDigitChar (b % 16)]

/-- JS `encodeURIComponent`: unreserved characters pass, all others are
percent-escaped byte by byte. -/
def encodeURIComponent (s : String) : String :=
  ⟨s.data.foldr
    (fun c acc =>
      (if isUnreservedURI c then [c] else (utf8Bytes c).foldr (fun b a => percentByte b ++ a) []) ++ acc)
    []⟩

/-- The fallback search URL all placeholder results carry:
`https://www.google.com/search?q=${encodeURIComponent(query)}`. -/
def googleSearchUrl (q : String) : String :=
  "https://www.google.com/search?q=" ++ encodeURIComponent q

/-! ### The extraction data model

A `Block` records what the loop body of `parseGoogleHTMLWithCheerio`
(src/index.js:315-418) observes of one candidate element matched by
`div.tF2Cxc, div.kvH3mc, #search div.g`.  Text fields hold the already
trimmed `.text().trim()` values the code computes. -/

/-- One result of the extraction pipeline (title/url/snippet/source). -/
structure ExtractedResult where
  title : String
  url : String
  snippet : String
  source : String
deriving Repr, DecidableEq

/-- The primary link element `div.yuRUbf > a[href], a[jsname="UWckNb"][href]`:
its `href` and the trimmed text of its first `h3`/heading descendant. -/
structure LinkElem where
  href : String
  headingText : String
deriving Repr, DecidableEq

/-- One `span` of the block, for the snippet fallback: whether
`closest('h3, div.yuRUbf, a[href]')` is non-empty, and its trimmed text. -/
structure SpanElem where
  inTitleLink : Bool
  text : String
deriving Repr, DecidableEq

/-- A candidate result block as observed through the source's selectors. -/
structure Block where
  /-- `closest('[data-text-ad="1"]')` is non-empty. -/
  inTextAd : Bool
  /-- a `span:contains("Ad")` or `span:contains("Sponsored")` exists. -/
  hasAdSponsoredSpan : Bool
  /-- a `div[role="region"][aria-label*="Ads"]` exists. -/
  hasAdsRegion : Bool
  /-- a `div[data-nosnippet="true"]` exists. -/
  hasNoSnippet : Bool
  /-- a `g-accordion-expander` exists. -/
  hasAccordion : Bool
  /-- a level-2 heading containing "People also ask" exists. -/
  hasPeopleAlsoAsk : Bool
  /-- a level-2 heading containing "Related searches" exists. -/
  hasRelatedSearches : Bool
  /-- a level-2 heading containing "Top stories" exists. -/
  hasTopStories : Bool
  /-- a level-2 heading containing "Videos" exists. -/
  hasVideos : Bool
  /-- `css('display') === 'none'`. -/
  displayNone : Bool
  /-- length of `resultElement.text().trim()`. -/
  textLen : Nat
  /-- the primary link element, when the selector matches. -/
  primaryLink : Option LinkElem
  /-- `href` of the first `a[href]` of the block, when one exists. -/
  genericLinkHref : Option String
  /-- trimmed text of the first `h3` inside that first link (empty if none). -/
  genericLinkH3 : String
  /-- trimmed text of the block's first `h3`/level-3 heading (empty if none). -/
  blockHeading : String
  /-- trimmed text of the first snippet-selector match
  `div.VwiC3b, div.Uroaid, div.s, div.st, div[data-sncf="1"]` (empty if none). -/
  snippetSel : String
  /-- the block's `span` elements in order, for the snippet fallback. -/
  spans : List SpanElem
deriving Repr, DecidableEq

/-- The loaded document: the candidate blocks matched by
`div.tF2Cxc, div.kvH3mc, #search div.g`, in document order. -/
structure Document where
  blocks : List Block
deriving Repr, DecidableEq

/-- The ad / special-feature rejection disjunction of src/index.js:321-331. -/
def isAdOrSpecial (b : Block) : Bool :=
  b.inTextAd || b.hasAdSponsoredSpan || b.hasAdsRegion || b.hasNoSnippet ||
  b.hasAccordion || b.hasPeopleAlsoAsk || b.hasRelatedSearches ||
  b.hasTopStories || b.hasVideos || b.displayNone

/-- Title and raw href the extractor recovers from a block
(src/index.js:343-366); `none` when the block has no link at all. -/
def blockLinkAndTitle (b : Block) : Option (String × String) :=
  match b.primaryLink with
  | some l => some (l.headingText, l.href)
  | none =>
    match b.genericLinkHref with
    | some href =>
      some (if b.genericLinkH3 = "" then b.blockHeading else b.genericLinkH3, href)
    | none => none

/-- The fixed denylist of Google-internal destinations (src/index.js:376-383). -/
def urlOnDenylist (url : String) : Bool :=
  jsIncludes url "google.com/search?" ||
  jsIncludes url "google.com/imgres" ||
  jsIncludes url "google.com/maps" ||
  jsIncludes url "google.com/preferences" ||
  jsIncludes url "accounts.google.com" ||
  jsIncludes url "support.google.com/websearch/answer" ||
  jsIncludes url "policies.google.com" ||
  jsIncludes url "webcache.googleusercontent.com"

/-- The URL-validation rejection of src/index.js:375-385: missing, not
absolute http(s), on the denylist, or already seen in this call. -/
def urlRejected (seen : List String) (url : String) : Bool :=
  url = "" || !jsStartsWith url "http" || urlOnDenylist url || seen.contains url

/-- Snippet extraction (src/index.js:391-404): the first snippet-selector
match, else trimmed concatenation of the long (`> 15` chars) spans outside
the title/link structure, capped at 350 characters. -/
def blockSnippet (b : Block) : String :=
  if b.snippetSel = "" then
    jsSubstringTo 350 (jsTrim
      (b.spans.foldl
        (fun acc sp =>
          if !sp.inTitleLink && sp.text.length > 15 then acc ++ sp.text ++ " " else acc)
        ""))
  else b.snippetSel

/-- State of the extraction loop: accepted results and the seen-URL set. -/
structure PState where
  results : List ExtractedResult
  seen : List String
deriving Repr, DecidableEq

/-- One iteration of the `resultBlocks.each` loop (src/index.js:315-418). -/
def stepBlock (st : PState) (b : Block) : PState :=
  if st.results.length ≥ 10 then st
  else if isAdOrSpecial b then st
  else if b.textLen < 50 then st
  else
    match blockLinkAndTitle b with
    | none => st
    | some tu =>
      let title := tu.1
      let url := unwrapUrl tu.2
      if urlRejected st.seen url then st
      else
        let snippet := blockSnippet b
        if title ≠ "" ∧ url ≠ "" ∧ title.length > 3 ∧ snippet.length > 10 then
          { results := st.results ++
              [{ title := title, url := url, snippet := snippet,
                 source := "Bright Data SERP (Cheerio)" }],
            seen := url :: st.seen }
        else st

/-- The whole extraction loop over the candidate blocks. -/
def parseLoop (d : Document) : List ExtractedResult :=
  (d.blocks.foldl stepBlock ⟨[], []⟩).results

/-- Outcome of `cheerio.load` on a non-empty markup string: the library
either throws (caught at src/index.js:295) or yields a document tree. -/
inductive LoadOutcome
  | loadError
  | loaded (d : Document)
deriving Repr, DecidableEq

/-- The `html` argument as the parser observes it: a markup string together
with what `cheerio.load` makes of it.  A non-string `html` is outside this
model: the debug log at src/index.js:286 calls `html.substring(0, 500)`
before the `!html` guard, so a non-string value throws a TypeError that the
endpoint's catch-all turns into a 500 response — the parser never returns
a list for it. -/
inductive HtmlInput
  | str (s : String) (load : LoadOutcome)
deriving Repr, DecidableEq

/-- The placeholder returned when cheerio fails to load (src/index.js:298-303). -/
def cheerioLoadErrorResult (q : String) : ExtractedResult :=
  { title := "Error parsing HTML for \"" ++ q ++ "\""
    url := googleSearchUrl q
    snippet := "Internal proxy error: Cheerio could not load the HTML content from Bright Data."
    source := "Bright Data SERP (Cheerio Load Error)" }

/-- The placeholder returned when no organic result was extracted
(src/index.js:424-429). -/
def noOrganicFallbackResult (q : String) : ExtractedResult :=
  { title := "No organic results found for \"" ++ q ++ "\""
    url := googleSearchUrl q
    snippet := "Could not extract organic search results. Google's HTML structure might have changed or no relevant results were found."
    source := "Bright Data SERP (Cheerio Fallback)" }

/-- `parseGoogleHTMLWithCheerio` (src/index.js:285-436) on a markup string:
the empty string fails the `!html` guard and yields `[]`; a cheerio load
error yields the load-error placeholder; otherwise the extraction loop runs,
and an empty loop result is replaced by the no-organic-results placeholder. -/
def parseGoogleHTMLWithCheerio (html : HtmlInput) (query : String) : List ExtractedResult :=
  match html with
  | .str s load =>
    if s = "" then []
    else
      match load with
      | .loadError => [cheerioLoadErrorResult query]
      | .loaded d =>
        let results := parseLoop d
        if results.length = 0 then [noOrganicFallbackResult query] else results

/-! ### The proxy dispatcher (the two endpoints)

`POST /api/brightdata` (src/index.js:71-180) and `GET /api/brightdataget`
(src/index.js:183-281) share the same validation, configuration check,
upstream call, and response assembly; only strings in the envelopes differ.
The model splits each handler at its one suspension point (the upstream
fetch): `dispatchBrightdataPost`/`dispatchBrightdataGet` cover everything
before the fetch, `handleAfterFetch` everything after it. -/

/-- A JS value as it can arrive in `req.body.query` or `req.query.query`. -/
inductive JSValue
  | undef
  | nullv
  | str (s : String)
  | num (n : Int)
  | boolv (b : Bool)
  | arr (n : Nat)
  | obj
deriving Repr, DecidableEq

/-- JS truthiness of a `JSValue`. -/
def truthy : JSValue → Bool
  | .undef => false
  | .nullv => false
  | .str s => !(s = "")
  | .num n => !(n = 0)
  | .boolv b => b
  | .arr _ => true
  | .obj => true

/-- `typeof v === 'string'`. -/
def isStringValue : JSValue → Bool
  | .str _ => true
  | _ => false

/-- The query-validation predicate both endpoints use
(`!query || typeof query !== 'string' || query.trim().length === 0`). -/
def isInvalidQuery (q : JSValue) : Bool :=
  !truthy q || !isStringValue q ||
  (match q with
   | .str s => (jsTrim s).length = 0
   | _ => false)

/-- The string of a `JSValue` known to be a string (used past validation). -/
def jsValueString : JSValue → String
  | .str s => s
  | _ => ""

/-- What the handler does before its upstream fetch. -/
inductive PreFetch
  | badRequest400
  | configError500
  | upstream (searchUrl : String)
deriving Repr, DecidableEq

/-- Pre-fetch phase of `POST /api/brightdata` (src/index.js:79-124): validate
the query, check the token, then build the Google search URL for the Bright
Data request body (only `query` is URL-encoded on this route). -/
def dispatchBrightdataPost (query : JSValue) (hasToken : Bool)
    (num hl gl : String) : PreFetch :=
  if isInvalidQuery query then .badRequest400
  else if !hasToken then .configError500
  else .upstream ("https://www.google.com/search?q=" ++
    encodeURIComponent (jsValueString query) ++
    "&num=" ++ num ++ "&hl=" ++ hl ++ "&gl=" ++ gl)

/-- Pre-fetch phase of `GET /api/brightdataget` (src/index.js:188-228): same
validation and token check; this route URL-encodes `num`, `hl`, `gl` too. -/
def dispatchBrightdataGet (query : JSValue) (hasToken : Bool)
    (num hl gl : String) : PreFetch :=
  if isInvalidQuery query then .badRequest400
  else if !hasToken then .configError500
  else .upstream ("https://www.google.com/search?q=" ++
    encodeURIComponent (jsValueString query) ++
    "&num=" ++ encodeURIComponent num ++ "&hl=" ++ encodeURIComponent hl ++
    "&gl=" ++ encodeURIComponent gl)

/-- What the upstream fetch returned: `ok`, `status`, `statusText`, body text. -/
structure UpstreamResp where
  ok : Bool
  status : Nat
  statusText : String
  body : String
deriving Repr, DecidableEq

/-- The success envelope (`success: true` JSON bodies of both endpoints). -/
structure SuccessPayload where
  query : String
  results : List ExtractedResult
  totalResults : Nat
  source : String
  timestamp : String
deriving Repr, DecidableEq

/-- The HTTP response of the post-fetch phase. -/
inductive HttpResponse
  | success (status : Nat) (p : SuccessPayload)
  | failure (status : Nat) (error : String) (details : String)
deriving Repr, DecidableEq

/-- The endpoint placeholder substituted when the parser returned nothing
(src/index.js:144-160). -/
def noResultsPlaceholder (q : String) : ExtractedResult :=
  { title := "No results for \"" ++ q ++ "\""
    url := googleSearchUrl q
    snippet := "No search results were found. Try using different keywords or check your search terms."
    source := "Bright Data SERP" }

/-- Post-fetch phase of `POST /api/brightdata` (src/index.js:126-169): a
non-ok upstream response becomes a 502 carrying the body truncated to 200
characters; otherwise the body is parsed (`html` packages the body string
with its cheerio outcome) and an empty result list is replaced by the
endpoint placeholder.  Either way the JSON reply has HTTP status 200. -/
def handleAfterFetch (resp : UpstreamResp) (html : HtmlInput)
    (query now : String) : HttpResponse :=
  if !resp.ok then
    .failure 502 "Bright Data API error" (jsSubstringTo 200 resp.body)
  else
    let results := parseGoogleHTMLWithCheerio html query
    if results.length = 0 then
      .success 200
        { query := query, results := [noResultsPlaceholder query],
          totalResults := 1, source := "Bright Data SERP", timestamp := now }
    else
      .success 200
        { query := query, results := results, totalResults := results.length,
          source := "Bright Data SERP", timestamp := now }

/-- The endpoint placeholder of the GET route (src/index.js:245-260); its
template literal `\\"` puts literal backslash-quote pairs around the query. -/
def noResultsPlaceholderGet (q : String) : ExtractedResult :=
  { title := "No results for \\\"" ++ q ++ "\\\""
    url := googleSearchUrl q
    snippet := "No search results were found. Try using different keywords."
    source := "Bright Data SERP (via GET->POST Proxy)" }

/-- Post-fetch phase of `GET /api/brightdataget` (src/index.js:230-270):
identical control flow to the POST route, with the GET envelope strings. -/
def handleAfterFetchGet (resp : UpstreamResp) (html : HtmlInput)
    (query now : String) : HttpResponse :=
  if !resp.ok then
    .failure 502 "Bright Data API error (via GET->POST)" (jsSubstringTo 200 resp.body)
  else
    let results := parseGoogleHTMLWithCheerio html query
    if results.length = 0 then
      .success 200
        { query := query, results := [noResultsPlaceholderGet query],
          totalResults := 1, source := "Bright Data SERP (via GET->POST Proxy)",
          timestamp := now }
    else
      .success 200
        { query := query, results := results, totalResults := results.length,
          source := "Bright Data SERP (via GET->POST Proxy)", timestamp := now }

/-- The results list a response carries. -/
def responseResults : HttpResponse → List ExtractedResult
  | .success _ p => p.results
  | .failure _ _ _ => []

/-- What the acceptance gate and URL validation guarantee of every result the
extraction loop emits: title longer than 3, snippet longer than 10, an
absolute http(s) URL, and no denylisted destination. -/
def goodResult (r : ExtractedResult) : Bool :=
  decide (r.title.length > 3) && decide (r.snippet.length > 10) &&
  jsStartsWith r.url "http" && !urlOnDenylist r.url

/-- Invariant of the extraction-loop state: at most 10 results, pairwise
distinct URLs, every result past the gate, and every accepted URL recorded
in the seen set. -/
def LoopInv (st : PState) : Prop :=
  st.results.length ≤ 10 ∧
  (st.results.map ExtractedResult.url).Nodup ∧
  (∀ r ∈ st.results, goodResult r = true) ∧
  (∀ r ∈ st.results, st.seen.contains r.url = true)

/-! ### Helper lemmas -/

theorem isPrefixOf_append_right (p a b : List Char)
    (h : List.isPrefixOf p a = true) : List.isPrefixOf p (a ++ b) = true := by
  induction p generalizing a with
  | nil => simp
  | cons c cs ih =>
    cases a with
    | nil => simp [List.isPrefixOf] at h
    | cons x xs =>
      simp only [List.cons_append, List.isPrefixOf_cons₂, Bool.and_eq_true] at h ⊢
      exact ⟨h.1, ih xs h.2⟩

theorem googleSearchUrl_startsWith_http (q : String) :
    jsStartsWith (googleSearchUrl q) "http" = true := by
  unfold googleSearchUrl jsStartsWith
  rw [String.data_append]
  exact isPrefixOf_append_right _ _ _ (by decide)

theorem loopInv_init : LoopInv ⟨[], []⟩ := by
  refine ⟨by simp, by simp, ?_, ?_⟩ <;> intro r hr <;> simp at hr

theorem stepBlock_inv (st : PState) (b : Block) (h : LoopInv st) :
    LoopInv (stepBlock st b) := by
  obtain ⟨hlen, hnodup, hgood, hseen⟩ := h
  unfold stepBlock
  split
  · exact ⟨hlen, hnodup, hgood, hseen⟩
  next hcap =>
    split
    · exact ⟨hlen, hnodup, hgood, hseen⟩
    split
    · exact ⟨hlen, hnodup, hgood, hseen⟩
    split
    · exact ⟨hlen, hnodup, hgood, hseen⟩
    next tu heq =>
      dsimp only
      split
      · exact ⟨hlen, hnodup, hgood, hseen⟩
      next hrej =>
        rw [Bool.not_eq_true] at hrej
        split
        · next hgate =>
          simp only [urlRejected, Bool.or_eq_false_iff, Bool.not_eq_false',
            decide_eq_false_iff_not] at hrej
          obtain ⟨⟨⟨hne, hhttp⟩, hdeny⟩, hdup⟩ := hrej
          have hnotin : unwrapUrl tu.2 ∉ st.results.map ExtractedResult.url := by
            intro hmem
            simp only [List.mem_map] at hmem
            obtain ⟨r, hr, hru⟩ := hmem
            have := hseen r hr
            rw [hru] at this
            rw [this] at hdup
            exact absurd hdup (by simp)
          refine ⟨?_, ?_, ?_, ?_⟩
          · simp only [List.length_append, List.length_singleton]
            omega
          · simp only [List.map_append, List.map_singleton]
            rw [List.nodup_append]
            refine ⟨hnodup, List.nodup_singleton _, ?_⟩
            intro u hu hu'
            simp only [List.mem_singleton] at hu'
            exact hnotin (hu' ▸ hu)
          · intro r hr
            simp only [List.mem_append, List.mem_singleton] at hr
            rcases hr with hr | hr
            · exact hgood r hr
            · subst hr
              simp only [goodResult, Bool.and_eq_true, decide_eq_true_eq,
                Bool.not_eq_true']
              exact ⟨⟨⟨hgate.2.2.1, hgate.2.2.2⟩, hhttp⟩, hdeny⟩
          · intro r hr
            simp only [List.mem_append, List.mem_singleton] at hr
            rcases hr with hr | hr
            · simp only [List.contains_cons, Bool.or_eq_true]
              exact Or.inr (hseen r hr)
            · subst hr
              simp [List.contains_cons]
        · exact ⟨hlen, hnodup, hgood, hseen⟩

theorem foldl_stepBlock_inv (bs : List Block) (st : PState) (h : LoopInv st) :
    LoopInv (bs.foldl stepBlock st) := by
  induction bs generalizing st with
  | nil => exact h
  | cons b bs ih => exact ih _ (stepBlock_inv _ _ h)

theorem parseLoop_inv (d : Document) : LoopInv (d.blocks.foldl stepBlock ⟨[], []⟩) :=
  foldl_stepBlock_inv d.blocks ⟨[], []⟩ loopInv_init

theorem stepBlock_of_adOrSpecial (st : PState) (b : Block)
    (h : isAdOrSpecial b = true) : stepBlock st b = st := by
  unfold stepBlock
  split
  · rfl
  · simp [h]

theorem foldl_stepBlock_filter_ad (bs : List Block) (st : PState) :
    bs.foldl stepBlock st =
      (bs.filter (fun b => !isAdOrSpecial b)).foldl stepBlock st := by
  induction bs generalizing st with
  | nil => rfl
  | cons b bs ih =>
    by_cases h : isAdOrSpecial b = true
    · simp only [List.foldl_cons, List.filter_cons, h, Bool.not_true,
        stepBlock_of_adOrSpecial st b h]
      exact ih st
    · simp only [Bool.not_eq_true] at h
      simp only [List.foldl_cons, List.filter_cons, h, Bool.not_false]
      exact ih (stepBlock st b)

theorem unwrapUrl_of_not_wrapped (v : String)
    (hv : jsStartsWith v "/url?q=" = false) : unwrapUrl v = v := by
  unfold unwrapUrl
  simp [hv]

/-! ### The claims -/

/-- C1, counterexample: on the empty markup string the extraction pipeline
returns the empty array, not a one-element placeholder list — the
`!html` guard at src/index.js:287-290 returns `[]` before any placeholder
logic runs.  This refutes the claim as stated for every markup string. -/
theorem parse_empty_html_returns_empty_array :
    parseGoogleHTMLWithCheerio (.str "" (.loaded ⟨[]⟩)) "rust programming" = [] := by
  decide

/-- C1, amended: for every NON-EMPTY markup string and every query the
pipeline returns a non-empty list; a cheerio load failure yields exactly the
load-error placeholder, and an extraction loop that accepts nothing yields
exactly the no-organic-results placeholder.  (For the empty markup string
the parser returns `[]` and the endpoints substitute their own placeholder.) -/
theorem parse_nonempty_html_never_empty (s : String) (load : LoadOutcome)
    (q : String) (h : s ≠ "") :
    parseGoogleHTMLWithCheerio (.str s load) q ≠ [] ∧
    (load = .loadError →
      parseGoogleHTMLWithCheerio (.str s load) q = [cheerioLoadErrorResult q]) ∧
    (∀ d, load = .loaded d → parseLoop d = [] →
      parseGoogleHTMLWithCheerio (.str s load) q = [noOrganicFallbackResult q]) := by
  cases load with
  | loadError =>
    refine ⟨by simp [parseGoogleHTMLWithCheerio, h], fun _ => by
      simp [parseGoogleHTMLWithCheerio, h], fun d hd => by simp at hd⟩
  | loaded d =>
    by_cases h0 : (parseLoop d).length = 0
    · have hp : parseGoogleHTMLWithCheerio (.str s (.loaded d)) q =
          [noOrganicFallbackResult q] := by
        simp [parseGoogleHTMLWithCheerio, h, h0]
      refine ⟨by simp [hp], fun hc => by simp at hc, fun d' hd' _ => ?_⟩
      obtain rfl : d = d' := by injection hd'
      exact hp
    · have hp : parseGoogleHTMLWithCheerio (.str s (.loaded d)) q = parseLoop d := by
        simp [parseGoogleHTMLWithCheerio, h, h0]
      refine ⟨?_, fun hc => by simp at hc, fun d' hd' hnil => ?_⟩
      · rw [hp]
        intro hnil
        exact h0 (by simp [hnil])
      · obtain rfl : d = d' := by injection hd'
        exact absurd (by simp [hnil] : (parseLoop d).length = 0) h0

/-- C1, witness for the amended theorem at a concrete non-empty markup
string whose document contains no candidate block. -/
theorem parse_nonempty_html_never_empty_witness :
    ("<html></html>" : String) ≠ "" ∧
    parseGoogleHTMLWithCheerio (.str "<html></html>" (.loaded ⟨[]⟩)) "x" ≠ [] :=
  ⟨by decide, (parse_nonempty_html_never_empty "<html></html>" (.loaded ⟨[]⟩) "x"
    (by decide)).1⟩

/-- C2: for every markup input and query the returned result list has length
at most 10 and its url fields are pairwise distinct. -/
theorem parse_length_le_ten_and_urls_nodup (html : HtmlInput) (q : String) :
    (parseGoogleHTMLWithCheerio html q).length ≤ 10 ∧
    ((parseGoogleHTMLWithCheerio html q).map ExtractedResult.url).Nodup := by
  cases html with
  | str s load =>
    by_cases hs : s = ""
    · simp [parseGoogleHTMLWithCheerio, hs]
    · cases load with
      | loadError => simp [parseGoogleHTMLWithCheerio, hs]
      | loaded d =>
        have hinv := parseLoop_inv d
        by_cases h0 : (parseLoop d).length = 0
        · simp [parseGoogleHTMLWithCheerio, hs, h0]
        · simp only [parseGoogleHTMLWithCheerio, if_neg hs, h0, if_neg h0]
          exact ⟨hinv.1, hinv.2.1⟩

/-- C3: blocks classified as ad or special-feature containers contribute
nothing to the output: the extraction loop computes the same result list as
the loop over the candidate list with all such blocks removed, whatever
their title, link, or snippet content. -/
theorem parseLoop_ignores_ad_blocks (d : Document) :
    parseLoop d = parseLoop ⟨d.blocks.filter (fun b => !isAdOrSpecial b)⟩ := by
  unfold parseLoop
  rw [foldl_stepBlock_filter_ad]

/-- C4, counterexample: the unwrap step is not idempotent — a doubly-wrapped
redirect URL (the `q` parameter itself percent-encodes a `/url?q=` wrapper)
unwraps to a string that unwraps again to something different. -/
theorem unwrapUrl_not_idempotent :
    unwrapUrl (unwrapUrl "/url?q=%2Furl%3Fq%3Dhttps%3A%2F%2Fexample.com") ≠
      unwrapUrl "/url?q=%2Furl%3Fq%3Dhttps%3A%2F%2Fexample.com" := by
  decide

/-- C4, amended: the unwrap step is idempotent on every URL whose unwrap
result does not itself begin with `/url?q=` — in particular on every
already-unwrapped absolute URL; only URLs whose decoded `q` parameter again
begins with `/url?q=` unwrap twice. -/
theorem unwrapUrl_idempotent_unless_rewrapped (u : String)
    (h : jsStartsWith (unwrapUrl u) "/url?q=" = false) :
    unwrapUrl (unwrapUrl u) = unwrapUrl u :=
  unwrapUrl_of_not_wrapped (unwrapUrl u) h

/-- C4, witness: a singly-wrapped URL unwraps to an absolute URL which the
step then leaves fixed. -/
theorem unwrapUrl_idempotent_unless_rewrapped_witness :
    jsStartsWith (unwrapUrl "/url?q=https%3A%2F%2Fexample.com") "/url?q=" = false ∧
    unwrapUrl (unwrapUrl "/url?q=https%3A%2F%2Fexample.com") =
      unwrapUrl "/url?q=https%3A%2F%2Fexample.com" :=
  ⟨by decide, unwrapUrl_idempotent_unless_rewrapped
    "/url?q=https%3A%2F%2Fexample.com" (by decide)⟩

/-- C5: a query value that is an empty string, a whitespace-only string, or
not a string at all is answered with the 400 InvalidQuery response by both
endpoints, before the upstream request is even constructed (the outcome
carries no upstream call), whatever the token configuration and the other
parameters. -/
theorem invalid_query_rejected_before_fetch (q : JSValue) (hasToken : Bool)
    (num hl gl : String)
    (h : (∃ s, q = .str s ∧ jsTrim s = "") ∨ isStringValue q = false) :
    dispatchBrightdataPost q hasToken num hl gl = .badRequest400 ∧
    dispatchBrightdataGet q hasToken num hl gl = .badRequest400 := by
  have hin : isInvalidQuery q = true := by
    rcases h with ⟨s, rfl, hs⟩ | h
    · simp [isInvalidQuery, hs]
    · cases q <;> simp_all [isInvalidQuery, isStringValue]
  exact ⟨by simp [dispatchBrightdataPost, hin], by simp [dispatchBrightdataGet, hin]⟩

/-- C5, witness: the whitespace-only query " " is rejected by both routes. -/
theorem invalid_query_rejected_before_fetch_witness :
    dispatchBrightdataPost (.str " ") true "10" "en" "us" = .badRequest400 ∧
    dispatchBrightdataGet (.str " ") true "10" "en" "us" = .badRequest400 :=
  invalid_query_rejected_before_fetch (.str " ") true "10" "en" "us"
    (Or.inl ⟨" ", rfl, by decide⟩)

/-- C6: every result the extraction loop emits passed the acceptance gate
and URL validation: title longer than 3 characters, snippet longer than 10,
an absolute http(s) URL, not on the denylist, and not a duplicate — the
emitted url fields are pairwise distinct.  Blocks failing the gate are
dropped by the total function without any error value. -/
theorem parseLoop_acceptance_gate (d : Document) :
    (parseLoop d).all
      (fun r => decide (r.title.length > 3) && decide (r.snippet.length > 10) &&
        jsStartsWith r.url "http" && !urlOnDenylist r.url) = true ∧
    ((parseLoop d).map ExtractedResult.url).Nodup := by
  have hinv := parseLoop_inv d
  refine ⟨?_, hinv.2.1⟩
  rw [List.all_eq_true]
  intro r hr
  exact hinv.2.2.1 r hr

/-- C7: when the upstream fetch reports a non-success status the handler
answers 502 with the upstream body truncated to at most 200 characters, and
the response is independent of the fetched markup — the extraction function
is never consulted. -/
theorem upstream_error_502_truncated_no_extraction (status : Nat)
    (stext body : String) (html1 html2 : HtmlInput) (q now : String) :
    handleAfterFetch ⟨false, status, stext, body⟩ html1 q now =
      .failure 502 "Bright Data API error" (jsSubstringTo 200 body) ∧
    handleAfterFetchGet ⟨false, status, stext, body⟩ html1 q now =
      .failure 502 "Bright Data API error (via GET->POST)" (jsSubstringTo 200 body) ∧
    (jsSubstringTo 200 body).length ≤ 200 ∧
    handleAfterFetch ⟨false, status, stext, body⟩ html1 q now =
      handleAfterFetch ⟨false, status, stext, body⟩ html2 q now ∧
    handleAfterFetchGet ⟨false, status, stext, body⟩ html1 q now =
      handleAfterFetchGet ⟨false, status, stext, body⟩ html2 q now := by
  refine ⟨rfl, rfl, ?_, rfl, rfl⟩
  show (body.data.take 200).length ≤ 200
  rw [List.length_take]
  exact Nat.min_le_left _ _

/-- C8: a successful upstream call with an empty markup body makes the
parser report nothing (the load-failure path), and the endpoint still
answers with HTTP 200 and exactly one placeholder result referencing the
query. -/
theorem empty_markup_yields_placeholder_200 (load : LoadOutcome)
    (q now stext : String) (status : Nat) :
    parseGoogleHTMLWithCheerio (.str "" load) q = [] ∧
    handleAfterFetch ⟨true, status, stext, ""⟩ (.str "" load) q now =
      .success 200
        { query := q, results := [noResultsPlaceholder q], totalResults := 1,
          source := "Bright Data SERP", timestamp := now } := by
  exact ⟨by simp [parseGoogleHTMLWithCheerio],
    by simp [handleAfterFetch, parseGoogleHTMLWithCheerio]⟩

/-- C9: the extraction pipeline is deterministic — the result list in the
response is a function of the upstream response and query alone; two runs
that differ only in run-ambient data (the response timestamp) carry
identical result lists in identical order. -/
theorem response_results_deterministic (resp : UpstreamResp) (html : HtmlInput)
    (q now1 now2 : String) :
    responseResults (handleAfterFetch resp html q now1) =
      responseResults (handleAfterFetch resp html q now2) := by
  unfold handleAfterFetch
  split
  · rfl
  · dsimp only
    split <;> rfl

/-- C10: every result the parser ever returns — extracted result,
no-organic-results placeholder, or load-error placeholder — carries an
absolute URL beginning with "http". -/
theorem parse_urls_absolute (html : HtmlInput) (q : String) :
    (parseGoogleHTMLWithCheerio html q).all
      (fun r => jsStartsWith r.url "http") = true := by
  cases html with
  | str s load =>
    by_cases hs : s = ""
    · simp [parseGoogleHTMLWithCheerio, hs]
    · cases load with
      | loadError =>
        simp [parseGoogleHTMLWithCheerio, hs, cheerioLoadErrorResult,
          googleSearchUrl_startsWith_http]
      | loaded d =>
        have hinv := parseLoop_inv d
        by_cases h0 : (parseLoop d).length = 0
        · simp [parseGoogleHTMLWithCheerio, hs, h0, noOrganicFallbackResult,
            googleSearchUrl_startsWith_http]
        · simp only [parseGoogleHTMLWithCheerio, if_neg hs, h0, if_neg h0]
          rw [List.all_eq_true]
          intro r hr
          have := hinv.2.2.1 r hr
          simp only [goodResult, Bool.and_eq_true] at this
          exact this.1.2

end BrightdataProxy
